import Mathlib

/-!
Shallow embedding of the inform-packet decoder (`src/packet.go`).

Bytes are modelled as `List Nat` with values below 256; multi-byte integers
are decoded big-endian as in `encoding/binary`. The external collaborators
(the AES-CBC block cipher and the snappy decompressor) are parameters of the
functions that use them, mirroring the collaborator boundary of the spec.
Go runtime panics (out-of-range slicing) are modelled as an explicit
`panicked` outcome.
-/

abbrev Bytes := List Nat

/-- Big-endian decoding of a byte sequence, as `binary.BigEndian.Uint32` and
`binary.BigEndian.Uint16` compute it on their fixed-width byte inputs. -/
def beNat (bs : Bytes) : Nat :=
  bs.foldl (fun a b => a * 256 + b % 256) 0

/-- The magic constant "UBNT" as ASCII bytes. -/
def ubnt : Bytes := [85, 66, 78, 84]

/-- Modelled from the spec: the error kinds of section 7 (the Go error
constructors `errInvalidMagic`, `errIncompletePacket`, `errInvalidKey`,
`errInvalidPadding`, `errFlagNotSupported` live outside `src/`); `ioError`
stands for a raw error returned by the byte source and propagated unchanged
by `ReadPacket`. -/
inductive InformError
  | invalidMagic
  | incompletePacket (reason : String)
  | invalidKey
  | invalidPadding (reason : String)
  | flagNotSupported (flag : String)
  | ioError (msg : String)
deriving DecidableEq, Repr

/-- The `Packet` struct of `packet.go`. The Go zero value `Packet{}` has
zero numbers and empty byte slices. -/
structure Packet where
  PacketVersion : Nat
  PayloadVersion : Nat
  MAC : Bytes
  Flags : Nat
  IV : Bytes
  Payload : Bytes
deriving DecidableEq, Repr

/-- Header field names (`fieldName` in `packet.go`). -/
inductive FieldName
  | hMagic
  | hPacketVersion
  | hMAC
  | hFlags
  | hIV
  | hPayloadVersion
  | hPayloadLength
deriving DecidableEq, Repr

/-- Packet flag bit `Encrypted` (`1 << iota` constants in `packet.go`). -/
def Encrypted : Nat := 1

/-- Packet flag bit `Compressed` (legacy compression). -/
def Compressed : Nat := 2

/-- Packet flag bit `SnappyCompressed`. -/
def SnappyCompressed : Nat := 4

/-- The static field-length table `fields` of `packet.go`. -/
def fields : List (FieldName × Nat) :=
  [(.hMagic, 4), (.hPacketVersion, 4), (.hMAC, 6), (.hFlags, 2),
   (.hIV, 16), (.hPayloadVersion, 4), (.hPayloadLength, 4)]

/-- Header length constant `hlen = 4 + 4 + 6 + 2 + 16 + 4 + 4`. -/
def hlen : Nat := 4 + 4 + 6 + 2 + 16 + 4 + 4

/-- The method `Packet.update` of `packet.go`: partial update of the named
field; names outside its switch (such as the magic) leave the packet
unchanged. -/
def Packet.update (p : Packet) (name : FieldName) (data : Bytes) : Packet :=
  match name with
  | .hPacketVersion => { p with PacketVersion := beNat data }
  | .hMAC => { p with MAC := data }
  | .hFlags => { p with Flags := beNat data }
  | .hIV => { p with IV := data }
  | .hPayloadVersion => { p with PayloadVersion := beNat data }
  | _ => p

/-- The field loop of `ReadPacket`: walk the `fields` table over the header
buffer with a running offset, checking the magic, allocating the payload
from the declared length (`make([]byte, val)` is that many zero bytes), and
applying `update` to every field except `hPayloadLength`. -/
def parseFields : List (FieldName × Nat) → Nat → Bytes → Packet → Except InformError Packet
  | [], _, _, pkt => .ok pkt
  | (f, flen) :: rest, off, head, pkt =>
    let curr := (head.drop off).take flen
    match f with
    | .hMagic =>
        if curr = ubnt then parseFields rest (off + flen) head (pkt.update f curr)
        else .error .invalidMagic
    | .hPayloadLength =>
        parseFields rest (off + flen) head { pkt with Payload := List.replicate (beNat curr) 0 }
    | _ => parseFields rest (off + flen) head (pkt.update f curr)

/-- Parsing a 40-byte header buffer, starting from the zero-valued `Packet{}`. -/
def parseHeader (head : Bytes) : Except InformError Packet :=
  parseFields fields 0 head ⟨0, 0, [], 0, [], []⟩

/-- One response of the byte source to a `Read` call: the bytes it delivers
(capped by the buffer size at the call site) and an optional error,
mirroring the Go return pair `(n, err)`. -/
structure ReadResp where
  bytes : Bytes
  err : Option String
deriving DecidableEq, Repr

/-- A byte source is the sequence of responses it gives to successive `Read`
calls; an exhausted source answers further calls with `EOF`. -/
abbrev Reader := List ReadResp

/-- One `r.Read(buf)` call with a buffer of size `n`: consume the next
response, delivering at most `n` bytes. -/
def readStep (r : Reader) (n : Nat) : ReadResp × Reader :=
  match r with
  | [] => (⟨[], some "EOF"⟩, [])
  | c :: rest => (⟨c.bytes.take n, c.err⟩, rest)

/-- The function `io.ReadFull` on the chunked source: keep reading into the
remainder of a `need`-byte buffer until it is full or a read reports an
error; a full buffer drops any accompanying error, and a partial buffer
turns a bare `EOF` into `unexpected EOF` when some bytes were already
read. -/
def readFull (need : Nat) : Reader → Bytes → (Bytes × Option String) × Reader
  | r, acc =>
    if need ≤ acc.length then ((acc, none), r)
    else
      match r with
      | [] => ((acc, some "EOF"), [])
      | c :: rest =>
        let acc2 := acc ++ c.bytes.take (need - acc.length)
        match c.err with
        | none => readFull need rest acc2
        | some e =>
          if need ≤ acc2.length then ((acc2, none), rest)
          else if e = "EOF" ∧ acc2.length > 0 then ((acc2, some "unexpected EOF"), rest)
          else ((acc2, some e), rest)

/-- The function `ReadPacket` of `packet.go`: one `Read` for the 40-byte
header (a read error is returned as-is, a short read fails with "header too
short"), the field loop, the zero-length check, then `io.ReadFull` for the
payload (a read error there fails with `IncompletePacketError` carrying its
description). -/
def ReadPacket (r : Reader) : Except InformError Packet :=
  let (resp, r1) := readStep r hlen
  match resp.err with
  | some e => .error (.ioError e)
  | none =>
    if resp.bytes.length ≠ hlen then .error (.incompletePacket "header too short")
    else
      match parseHeader resp.bytes with
      | .error e => .error e
      | .ok pkt =>
        if pkt.Payload.length = 0 then
          .error (.incompletePacket "header does not define payload length")
        else
          match (readFull pkt.Payload.length r1 []).1 with
          | (body, none) => .ok { pkt with Payload := body }
          | (_, some e) => .error (.incompletePacket e)

/-- The function `pkcs7unpad` of `packet.go`: empty input fails with "no
data"; with `n` the value of the last byte, `n == 0` or `n > len(b)` fails
with "data is not padded"; an entry among the last `n` bytes different from
`n` fails with "structure invalid"; otherwise the final `n` bytes are
removed. -/
def pkcs7unpad (b : Bytes) : Except InformError Bytes :=
  match b.getLast? with
  | none => .error (.invalidPadding "no data")
  | some c =>
    let n := c
    if n = 0 ∨ b.length < n then .error (.invalidPadding "data is not padded")
    else if (b.drop (b.length - n)).any (fun x => x != c) then
      .error (.invalidPadding "structure invalid")
    else .ok (b.take (b.length - n))

/-- The function `decrypt` of `packet.go`, with the AES-CBC primitive
abstracted as `cbc`: a key not exactly 16 bytes fails with
`InvalidKeyError`; a ciphertext length not a multiple of
`aes.BlockSize = 16` fails with `InvalidPaddingError("data is not
padded")`; otherwise the CBC-decrypted buffer (the code decrypts a private
copy in place) is passed to `pkcs7unpad`. -/
def decrypt (cbc : Bytes → Bytes → Bytes → Bytes) (key iv data : Bytes) :
    Except InformError Bytes :=
  if key.length ≠ 16 then .error .invalidKey
  else
    let ciphertext := data
    if ciphertext.length % 16 ≠ 0 then .error (.invalidPadding "data is not padded")
    else pkcs7unpad (cbc key iv ciphertext)

/-- Outcome of `deflate`, separating a Go runtime panic from the two normal
returns. -/
inductive DeflateResult
  | ok (b : Bytes)
  | error (e : String)
  | panicked
deriving DecidableEq, Repr

/-- Outcome of `Packet.Data`, separating a Go runtime panic from the two
normal returns. -/
inductive DataResult
  | ok (b : Bytes)
  | error (e : InformError)
  | panicked
deriving DecidableEq, Repr

/-- The function `deflate` of `packet.go`, with the snappy decoder
abstracted as `sd`: `snappy.Decode(nil, data[:len(data)-10])`. The slice
bound `len(data)-10` is a negative int when `len(data) < 10`, which panics
at runtime. -/
def deflate (sd : Bytes → Except String Bytes) (data : Bytes) : DeflateResult :=
  if data.length < 10 then .panicked
  else
    match sd (data.take (data.length - 10)) with
    | .ok b => .ok b
    | .error e => .error e

/-- The method `Packet.Data` of `packet.go`: decrypt when the `Encrypted`
bit is set (propagating any failure), fail with
`UnsupportedFlagError("compressed")` when the `Compressed` bit is set, then
deflate when the `SnappyCompressed` bit is set — where the code returns
`nil, nil` on a deflate error. -/
def Packet.Data (cbc : Bytes → Bytes → Bytes → Bytes)
    (sd : Bytes → Except String Bytes) (p : Packet) (key : Bytes) : DataResult :=
  match (if p.Flags &&& Encrypted ≠ 0 then decrypt cbc key p.IV p.Payload
         else .ok p.Payload : Except InformError Bytes) with
  | .error e => .error e
  | .ok res =>
    if p.Flags &&& Compressed ≠ 0 then .error (.flagNotSupported "compressed")
    else if p.Flags &&& SnappyCompressed ≠ 0 then
      match deflate sd res with
      | .panicked => .panicked
      | .error _ => .ok []
      | .ok b => .ok b
    else .ok res

/-- A concrete stand-in for the external CBC primitive, used in closed
statements. -/
def cbc0 : Bytes → Bytes → Bytes → Bytes := fun _ _ data => data

/-- A concrete stand-in for a snappy decoder that accepts every input. -/
def sd0 : Bytes → Except String Bytes := fun b => .ok b

/-- A concrete stand-in for a snappy decoder that rejects its input, as the
external decompressor does on corrupt data. -/
def sdFail : Bytes → Except String Bytes := fun _ => .error "snappy: corrupt input"

/-- A well-formed 40-byte header: magic "UBNT", packetVersion 1, a 6-byte
MAC, no flags, an all-zero IV, payloadVersion 0, declared payload length
5. -/
def hdrExample : Bytes :=
  ubnt ++ [0, 0, 0, 1] ++ [1, 2, 3, 4, 5, 6] ++ [0, 0] ++ List.replicate 16 0 ++
    [0, 0, 0, 0] ++ [0, 0, 0, 5]

/-- A 40-byte header with valid magic and a declared payload length of 0. -/
def hdrZeroLen : Bytes :=
  ubnt ++ [0, 0, 0, 1] ++ [1, 2, 3, 4, 5, 6] ++ [0, 0] ++ List.replicate 16 0 ++
    [0, 0, 0, 0] ++ [0, 0, 0, 0]

/-- Characterization of the header field loop: parsing succeeds exactly when
the first four bytes are "UBNT", and then every field is the big-endian or
raw slice of its fixed offset and width, with the payload allocated to the
declared length. -/
theorem parseHeader_eq (head : Bytes) :
    parseHeader head =
      if head.take 4 = ubnt then
        Except.ok
          { PacketVersion := beNat ((head.drop 4).take 4)
            PayloadVersion := beNat ((head.drop 32).take 4)
            MAC := (head.drop 8).take 6
            Flags := beNat ((head.drop 14).take 2)
            IV := (head.drop 16).take 16
            Payload := List.replicate (beNat ((head.drop 36).take 4)) 0 }
      else Except.error InformError.invalidMagic := by
  simp only [parseHeader, fields, parseFields, Packet.update, List.drop_zero]

/-- Successful `readFull` runs deliver exactly `need` bytes, extending the
accumulator with a prefix of the bytes the remaining source holds. -/
theorem readFull_spec (need : Nat) :
    ∀ (r : Reader) (acc out : Bytes) (r2 : Reader),
      acc.length ≤ need →
      readFull need r acc = ((out, none), r2) →
      out.length = need ∧ (∃ t, acc ++ t = out) ∧
        ∃ u, out ++ u = acc ++ (r.map ReadResp.bytes).flatten := by
  intro r
  induction r with
  | nil =>
    intro acc out r2 hle h
    rw [readFull] at h
    by_cases hg : need ≤ acc.length
    · rw [if_pos hg] at h
      simp only [Prod.mk.injEq] at h
      obtain ⟨⟨h1, -⟩, -⟩ := h
      subst h1
      exact ⟨by omega, ⟨[], by simp⟩, ⟨[], by simp⟩⟩
    · rw [if_neg hg] at h
      simp at h
  | cons c rest ih =>
    intro acc out r2 hle h
    rw [readFull] at h
    by_cases hg : need ≤ acc.length
    · rw [if_pos hg] at h
      simp only [Prod.mk.injEq] at h
      obtain ⟨⟨h1, -⟩, -⟩ := h
      subst h1
      exact ⟨by omega, ⟨[], by simp⟩, ⟨(((c :: rest).map ReadResp.bytes).flatten), rfl⟩⟩
    · rw [if_neg hg] at h
      have hlen2 : (acc ++ c.bytes.take (need - acc.length)).length ≤ need := by
        simp [List.length_take]
        omega
      cases hce : c.err with
      | none =>
        rw [hce] at h
        obtain ⟨ho1, ⟨t, ht⟩, ⟨u, hu⟩⟩ := ih _ out r2 hlen2 h
        refine ⟨ho1, ⟨c.bytes.take (need - acc.length) ++ t, by
          rw [← List.append_assoc]; exact ht⟩, ?_⟩
        by_cases hk : c.bytes.length ≤ need - acc.length
        · refine ⟨u, ?_⟩
          rw [hu, List.take_of_length_le hk]
          simp [List.append_assoc]
        · have hlen2' : (acc ++ c.bytes.take (need - acc.length)).length = need := by
            simp [List.length_take]
            omega
          have htlen : t.length = 0 := by
            have h3 := congrArg List.length ht
            simp only [List.length_append, hlen2', ho1] at h3
            omega
          have hout : acc ++ c.bytes.take (need - acc.length) = out := by
            rw [← ht, List.length_eq_zero.mp htlen, List.append_nil]
          refine ⟨c.bytes.drop (need - acc.length) ++ (rest.map ReadResp.bytes).flatten, ?_⟩
          rw [← hout]
          simp only [List.map_cons, List.flatten_cons, List.append_assoc]
          rw [← List.append_assoc (c.bytes.take (need - acc.length)), List.take_append_drop]
      | some e =>
        rw [hce] at h
        dsimp only at h
        by_cases hg2 : need ≤ (acc ++ c.bytes.take (need - acc.length)).length
        · rw [if_pos hg2] at h
          simp only [Prod.mk.injEq] at h
          obtain ⟨⟨h1, -⟩, -⟩ := h
          subst h1
          refine ⟨by simp_all; omega, ⟨c.bytes.take (need - acc.length), rfl⟩, ?_⟩
          refine ⟨c.bytes.drop (need - acc.length) ++ (rest.map ReadResp.bytes).flatten, ?_⟩
          simp only [List.map_cons, List.flatten_cons, List.append_assoc]
          rw [← List.append_assoc (c.bytes.take (need - acc.length)), List.take_append_drop]
        · rw [if_neg hg2] at h
          split at h <;> simp at h

/-- Claim C1 (code bug): when the `SnappyCompressed` flag is set and the
external snappy decoder fails on the suffix-stripped input (here: a 10-byte
payload whose stripped form is empty, and a decoder that rejects every
input), `Packet.Data` returns success with an empty result — the Go code
returns `nil, nil` — instead of surfacing the decompression failure. -/
theorem C1_decompression_failure_swallowed :
    sdFail [] = Except.error "snappy: corrupt input" ∧
    Packet.Data cbc0 sdFail (Packet.mk 0 0 [] 4 [] (List.replicate 10 0)) [] =
      DataResult.ok [] := by
  constructor <;> rfl

/-- Claim C2 (code bug): when the `SnappyCompressed` flag is set and the
byte sequence reaching the snappy step is shorter than 10 bytes, the slice
`data[:len(data)-10]` in `deflate` has a negative bound and `Packet.Data`
panics instead of failing with an error. -/
theorem C2_short_snappy_input_panics :
    ([1, 2, 3, 4, 5] : Bytes).length < 10 ∧
    Packet.Data cbc0 sd0 (Packet.mk 0 0 [] 4 [] [1, 2, 3, 4, 5]) [] =
      DataResult.panicked := by
  exact ⟨by decide, rfl⟩

/-- Claim C3: whenever the single header `Read` delivers fewer than 40 bytes
without reporting an I/O error, `ReadPacket` fails with
`IncompletePacketError("header too short")`; a short header read in one
attempt is never silently accepted. -/
theorem C3_short_header_read_fails (first : ReadResp) (rest : Reader)
    (herr : first.err = none) (hshort : first.bytes.length < hlen) :
    ReadPacket (first :: rest) = .error (.incompletePacket "header too short") := by
  have hne : (first.bytes.take hlen).length ≠ hlen := by
    simp only [List.length_take]
    omega
  simp [ReadPacket, readStep, herr, hne]
  intro h
  exact absurd h (by omega)

/-- Witness for C3: a source delivering only 3 bytes makes `ReadPacket` fail
with "header too short". -/
theorem C3_short_header_read_fails_witness :
    ReadPacket [ReadResp.mk [1, 2, 3] none] =
      Except.error (InformError.incompletePacket "header too short") :=
  C3_short_header_read_fails (ReadResp.mk [1, 2, 3] none) [] rfl (by decide)

/-- Claim C4 counterexample: a packet with both `Encrypted` and `Compressed`
set and a non-16-byte key makes `Packet.Data` fail with `InvalidKeyError`,
not `UnsupportedFlagError("compressed")` — the `Encrypted` stage runs first
and its failure preempts the legacy-compression check, so the claim as
stated ("regardless of which other flags are set") is false. -/
theorem C4_compressed_flag_counterexample :
    (Packet.mk 0 0 [] 3 [] []).Flags &&& Compressed ≠ 0 ∧
    Packet.Data cbc0 sd0 (Packet.mk 0 0 [] 3 [] []) [] =
      DataResult.error InformError.invalidKey ∧
    DataResult.error InformError.invalidKey ≠
      DataResult.error (InformError.flagNotSupported "compressed") := by
  refine ⟨by decide, rfl, by decide⟩

/-- Claim C4 (amended): for every packet with the `Compressed` flag set,
`Packet.Data` never succeeds: it fails with
`UnsupportedFlagError("compressed")` regardless of payload content and
other flags, except that when `Encrypted` is also set and decryption fails,
that decryption error is returned instead. -/
theorem C4_compressed_flag_amended (cbc : Bytes → Bytes → Bytes → Bytes)
    (sd : Bytes → Except String Bytes) (p : Packet) (key : Bytes)
    (h : p.Flags &&& Compressed ≠ 0) :
    Packet.Data cbc sd p key = .error (.flagNotSupported "compressed") ∨
    (p.Flags &&& Encrypted ≠ 0 ∧ ∃ e, decrypt cbc key p.IV p.Payload = .error e ∧
      Packet.Data cbc sd p key = .error e) := by
  by_cases he : p.Flags &&& Encrypted ≠ 0
  · cases hd : decrypt cbc key p.IV p.Payload with
    | error e =>
      right
      refine ⟨he, e, rfl, ?_⟩
      simp [Packet.Data, he, hd]
    | ok res =>
      left
      simp [Packet.Data, he, hd, h]
  · left
    simp [Packet.Data, he, h]

/-- Witness for the amended C4: a packet with only the `Compressed` flag
fails with `UnsupportedFlagError("compressed")`. -/
theorem C4_compressed_flag_amended_witness :
    Packet.Data cbc0 sd0 (Packet.mk 0 0 [] 2 [] []) [] =
      DataResult.error (InformError.flagNotSupported "compressed") ∨
    ((Packet.mk 0 0 [] 2 [] []).Flags &&& Encrypted ≠ 0 ∧
      ∃ e, decrypt cbc0 [] (Packet.mk 0 0 [] 2 [] []).IV (Packet.mk 0 0 [] 2 [] []).Payload =
          Except.error e ∧
        Packet.Data cbc0 sd0 (Packet.mk 0 0 [] 2 [] []) [] = DataResult.error e) :=
  C4_compressed_flag_amended cbc0 sd0 (Packet.mk 0 0 [] 2 [] []) [] (by decide)

/-- Claim C5: every packet successfully returned by `ReadPacket` has a
payload whose length equals the 32-bit big-endian `payloadLength` field at
bytes 36..39 of the header, and whose content is exactly that many bytes
delivered by the source immediately after the 40-byte header (a prefix of
the post-header stream). -/
theorem C5_payload_length_matches_header (r : Reader) (pkt : Packet)
    (h : ReadPacket r = .ok pkt) :
    ∃ first rest, r = first :: rest ∧
      pkt.Payload.length = beNat ((first.bytes.drop 36).take 4) ∧
      ∃ u, pkt.Payload ++ u = (rest.map ReadResp.bytes).flatten := by
  cases r with
  | nil => simp [ReadPacket, readStep] at h
  | cons first rest =>
    refine ⟨first, rest, rfl, ?_⟩
    rw [ReadPacket] at h
    simp only [readStep] at h
    cases herr : first.err with
    | some e => rw [herr] at h; simp at h
    | none =>
      rw [herr] at h
      dsimp only at h
      by_cases hfull : (first.bytes.take hlen).length = hlen
      case neg =>
        rw [if_pos hfull] at h
        exact absurd h (by simp)
      case pos =>
        rw [if_neg (by simp [hfull])] at h
        rw [parseHeader_eq] at h
        have hlong : hlen ≤ first.bytes.length := by
          simp only [List.length_take] at hfull
          omega
        have hd36 : ((first.bytes.take hlen).drop 36).take 4 = (first.bytes.drop 36).take 4 := by
          rw [List.drop_take, List.take_take]
          norm_num [hlen]
        by_cases hm : (first.bytes.take hlen).take 4 = ubnt
        case neg => rw [if_neg hm] at h; simp at h
        case pos =>
          rw [if_pos hm] at h
          dsimp only at h
          by_cases hz : (List.replicate (beNat (((first.bytes.take hlen).drop 36).take 4)) 0).length = 0
          case pos => rw [if_pos hz] at h; simp at h
          case neg =>
            rw [if_neg hz] at h
            cases hrf : (readFull (List.replicate (beNat (((first.bytes.take hlen).drop 36).take 4)) 0).length rest []).1 with
            | mk body oerr =>
              cases oerr with
              | some e => rw [hrf] at h; simp at h
              | none =>
                rw [hrf] at h
                simp only [Except.ok.injEq] at h
                have hrf2 : readFull (List.replicate (beNat (((first.bytes.take hlen).drop 36).take 4)) 0).length rest [] =
                    ((body, none), (readFull (List.replicate (beNat (((first.bytes.take hlen).drop 36).take 4)) 0).length rest []).2) := by
                  rw [← hrf]
                obtain ⟨hblen, -, ⟨u, hu⟩⟩ :=
                  readFull_spec _ rest [] body _ (by simp) hrf2
                have hpay : pkt.Payload = body := by rw [← h]
                refine ⟨?_, ⟨u, ?_⟩⟩
                · rw [hpay, hblen]
                  simp [hd36]
                · rw [hpay]
                  simpa using hu

/-- Witness for C5: decoding a valid header declaring 5 payload bytes
followed by a 5-byte body yields a packet satisfying the length and
prefix properties. -/
theorem C5_payload_length_matches_header_witness :
    ∃ first rest,
      ([ReadResp.mk hdrExample none, ReadResp.mk [9, 8, 7, 6, 5] none] : Reader) =
        first :: rest ∧
      (Packet.mk 1 0 [1, 2, 3, 4, 5, 6] 0 (List.replicate 16 0)
          [9, 8, 7, 6, 5]).Payload.length = beNat ((first.bytes.drop 36).take 4) ∧
      ∃ u, (Packet.mk 1 0 [1, 2, 3, 4, 5, 6] 0 (List.replicate 16 0)
          [9, 8, 7, 6, 5]).Payload ++ u = (rest.map ReadResp.bytes).flatten :=
  C5_payload_length_matches_header
    [ReadResp.mk hdrExample none, ReadResp.mk [9, 8, 7, 6, 5] none]
    (Packet.mk 1 0 [1, 2, 3, 4, 5, 6] 0 (List.replicate 16 0) [9, 8, 7, 6, 5]) rfl

/-- Claim C6: the full `pkcs7unpad` contract — an empty buffer fails with
"no data"; with `n` the value of the last byte, `n = 0` or `n > len`
fails with "data is not padded"; a byte among the last `n` differing from
`n` fails with "structure invalid"; otherwise the final `n` bytes are
removed. -/
theorem C6_pkcs7unpad_contract (b : Bytes) :
    (b = [] → pkcs7unpad b = .error (.invalidPadding "no data")) ∧
    (∀ c, b.getLast? = some c →
      ((c = 0 ∨ b.length < c) →
        pkcs7unpad b = .error (.invalidPadding "data is not padded")) ∧
      (c ≠ 0 → c ≤ b.length → (∃ x ∈ b.drop (b.length - c), x ≠ c) →
        pkcs7unpad b = .error (.invalidPadding "structure invalid")) ∧
      (c ≠ 0 → c ≤ b.length → (∀ x ∈ b.drop (b.length - c), x = c) →
        pkcs7unpad b = .ok (b.take (b.length - c)))) := by
  refine ⟨?_, ?_⟩
  · rintro rfl; rfl
  · intro c hc
    refine ⟨?_, ?_, ?_⟩
    · intro h
      simp [pkcs7unpad, hc, h]
    · intro h0 hle hex
      have hcond : ¬ (c = 0 ∨ b.length < c) := by
        push_neg; exact ⟨h0, by omega⟩
      have hany : (b.drop (b.length - c)).any (fun x => x != c) = true := by
        obtain ⟨x, hx, hne⟩ := hex
        simp only [List.any_eq_true, bne_iff_ne]
        exact ⟨x, hx, hne⟩
      simp [pkcs7unpad, hc, hcond, hany]
    · intro h0 hle hall
      have hcond : ¬ (c = 0 ∨ b.length < c) := by
        push_neg; exact ⟨h0, by omega⟩
      have hany : (b.drop (b.length - c)).any (fun x => x != c) = false := by
        simp only [List.any_eq_false, bne_iff_ne, ne_eq, not_not]
        exact hall
      simp [pkcs7unpad, hc, hcond, hany]

/-- Witness for C6: `[2, 2]` unpads to `[]`, and `[1, 2]` fails with
"structure invalid". -/
theorem C6_pkcs7unpad_contract_witness :
    pkcs7unpad [2, 2] = Except.ok [] ∧
    pkcs7unpad [1, 2] = Except.error (InformError.invalidPadding "structure invalid") := by
  refine ⟨((C6_pkcs7unpad_contract [2, 2]).2 2 rfl).2.2 (by decide) (by decide) (by decide), ?_⟩
  exact ((C6_pkcs7unpad_contract [1, 2]).2 2 rfl).2.1 (by decide) (by decide)
    ⟨1, by decide, by decide⟩

/-- Claim C7: `decrypt` fails with `InvalidKeyError` for every key whose
length is not 16, and with `InvalidPaddingError("data is not padded")` for
every 16-byte key when the ciphertext length is not a multiple of 16 — in
both cases for every cipher collaborator, hence without depending on the
cipher. -/
theorem C7_decrypt_preconditions (cbc : Bytes → Bytes → Bytes → Bytes)
    (key iv data : Bytes) :
    (key.length ≠ 16 → decrypt cbc key iv data = .error .invalidKey) ∧
    (key.length = 16 → data.length % 16 ≠ 0 →
      decrypt cbc key iv data = .error (.invalidPadding "data is not padded")) := by
  constructor
  · intro h; simp [decrypt, h]
  · intro h hm; simp [decrypt, h, hm]

/-- Witness for C7: an empty key fails with `InvalidKeyError`; a 16-byte key
with a 1-byte ciphertext fails with "data is not padded". -/
theorem C7_decrypt_preconditions_witness :
    decrypt cbc0 [] [] [] = Except.error InformError.invalidKey ∧
    decrypt cbc0 (List.replicate 16 0) [] [1] =
      Except.error (InformError.invalidPadding "data is not padded") :=
  ⟨(C7_decrypt_preconditions cbc0 [] [] []).1 (by decide),
   (C7_decrypt_preconditions cbc0 (List.replicate 16 0) [] [1]).2 (by decide) (by decide)⟩

/-- Claim C8: `ReadPacket` fails with `InvalidMagicError` exactly when the
source delivers a full 40-byte header whose first 4 bytes are not "UBNT";
in particular no other header field value can cause an
`InvalidMagicError`. -/
theorem C8_invalid_magic_characterization (r : Reader) :
    ReadPacket r = .error .invalidMagic ↔
      ∃ first rest, r = first :: rest ∧ first.err = none ∧
        hlen ≤ first.bytes.length ∧ first.bytes.take 4 ≠ ubnt := by
  cases r with
  | nil =>
    simp [ReadPacket, readStep]
  | cons first rest =>
    constructor
    · intro h
      rw [ReadPacket] at h
      simp only [readStep] at h
      cases herr : first.err with
      | some e => rw [herr] at h; simp at h
      | none =>
        rw [herr] at h
        dsimp only at h
        by_cases hfull : (first.bytes.take hlen).length = hlen
        case neg =>
          rw [if_pos hfull] at h
          exact absurd h (by simp)
        case pos =>
          rw [if_neg (by simp [hfull])] at h
          rw [parseHeader_eq] at h
          have hlong : hlen ≤ first.bytes.length := by
            simp only [List.length_take] at hfull
            omega
          by_cases hm : (first.bytes.take hlen).take 4 = ubnt
          case pos =>
            exfalso
            rw [if_pos hm] at h
            dsimp only at h
            by_cases hz : (List.replicate (beNat (((first.bytes.take hlen).drop 36).take 4)) 0).length = 0
            · rw [if_pos hz] at h; simp at h
            · rw [if_neg hz] at h
              rcases hrf : (readFull (List.replicate (beNat (((first.bytes.take hlen).drop 36).take 4)) 0).length rest []).1 with ⟨body, oerr⟩
              cases oerr <;> rw [hrf] at h <;> simp at h
          case neg =>
            rw [if_neg hm] at h
            refine ⟨first, rest, rfl, herr, hlong, ?_⟩
            rw [List.take_take] at hm
            simpa using hm
    · rintro ⟨f, rs, heq, herr, hlong, hm⟩
      injection heq with h1 h2
      subst h1
      subst h2
      have hfull : (first.bytes.take hlen).length = hlen := by
        simp only [List.length_take]
        omega
      have hm4 : (first.bytes.take hlen).take 4 ≠ ubnt := by
        rw [List.take_take]
        simpa using hm
      rw [ReadPacket]
      simp only [readStep]
      rw [herr]
      dsimp only
      rw [if_neg (by simp [hfull]), parseHeader_eq, if_neg hm4]

/-- Witness for C8: a 40-byte all-zero header fails with
`InvalidMagicError`. -/
theorem C8_invalid_magic_characterization_witness :
    ReadPacket [ReadResp.mk (List.replicate 40 0) none] =
      Except.error InformError.invalidMagic :=
  (C8_invalid_magic_characterization [ReadResp.mk (List.replicate 40 0) none]).mpr
    ⟨ReadResp.mk (List.replicate 40 0) none, [], rfl, rfl, by decide, by decide⟩

/-- Claim C9: a full 40-byte header with valid magic whose declared
`payloadLength` field is 0 makes `ReadPacket` fail with
`IncompletePacketError("header does not define payload length")`. -/
theorem C9_zero_payload_length_rejected (first : ReadResp) (rest : Reader)
    (herr : first.err = none) (hlong : hlen ≤ first.bytes.length)
    (hmagic : first.bytes.take 4 = ubnt)
    (hzero : beNat ((first.bytes.drop 36).take 4) = 0) :
    ReadPacket (first :: rest) =
      .error (.incompletePacket "header does not define payload length") := by
  have hfull : (first.bytes.take hlen).length = hlen := by
    simp only [List.length_take]
    omega
  have hm4 : (first.bytes.take hlen).take 4 = ubnt := by
    rw [List.take_take]
    simpa using hmagic
  have hd36 : ((first.bytes.take hlen).drop 36).take 4 = (first.bytes.drop 36).take 4 := by
    rw [List.drop_take, List.take_take]
    norm_num [hlen]
  simp [ReadPacket, readStep, herr, hfull, parseHeader_eq, hm4, hd36, hzero]

/-- Witness for C9: a valid-magic header declaring payload length 0 is
rejected as incomplete. -/
theorem C9_zero_payload_length_rejected_witness :
    ReadPacket [ReadResp.mk hdrZeroLen none] =
      Except.error (InformError.incompletePacket "header does not define payload length") :=
  C9_zero_payload_length_rejected (ReadResp.mk hdrZeroLen none) [] rfl
    (by decide) (by decide) (by decide)

/-- Claim C10: for every packet whose flags have none of the bits
`Encrypted`, `Compressed`, `SnappyCompressed` set — including flag values
with only other, unrecognized bits set — and every key, `Packet.Data`
returns the raw payload unchanged with no error. -/
theorem C10_no_relevant_flags_identity (cbc : Bytes → Bytes → Bytes → Bytes)
    (sd : Bytes → Except String Bytes) (p : Packet) (key : Bytes)
    (h1 : p.Flags &&& Encrypted = 0) (h2 : p.Flags &&& Compressed = 0)
    (h4 : p.Flags &&& SnappyCompressed = 0) :
    Packet.Data cbc sd p key = .ok p.Payload := by
  simp [Packet.Data, h1, h2, h4]

/-- Witness for C10: flags `0xFFF8` set only unrecognized bits, and the
payload passes through unchanged. -/
theorem C10_no_relevant_flags_identity_witness :
    Packet.Data cbc0 sd0 (Packet.mk 0 0 [] 65528 [] [7, 7]) [] = DataResult.ok [7, 7] :=
  C10_no_relevant_flags_identity cbc0 sd0 (Packet.mk 0 0 [] 65528 [] [7, 7]) []
    (by decide) (by decide) (by decide)
